import Mathlib

/-!
Verification of the filtering-and-aggregation pipeline of the COVID-19
vaccination dashboard (src/tugas.py).

The script is embedded shallowly:
* a pandas row becomes the structure Rec (numeric columns are Option Int,
  since pandas numeric columns may hold NaN; the date column is parsed by
  the loader and is never missing);
* the dataframe becomes a List Rec, keeping row order;
* the boolean-mask filter at lines 62-65 becomes filtered_df;
* the projection-plus-dropna at line 78 becomes clean_df;
* sort_values / groupby / last / reset_index at lines 81-86 become latest,
  where the sort is modelled as a stable ascending sort by date and
  GroupBy.last takes, per column, the last non-missing entry of the group
  (pandas GroupBy.last skips NA elements by default);
* the top-level control flow (the empty-filter guard at lines 67-69 and the
  tab-3 metric conversions at lines 154-158, where int() applied to the NaN
  mean of an empty series raises) becomes runPipeline;
* load_data (lines 18-26) becomes a function from an optional file content
  (none = file absent) to an Except value.
-/

/-- One row of the vaccination dataframe.  The four numeric columns may be
missing (NaN in pandas), the country and the parsed date are always
present. -/
structure Rec where
  country : String
  date : Nat
  total_vaccinations : Option Int
  people_vaccinated : Option Int
  people_fully_vaccinated : Option Int
  daily_vaccinations : Option Int
deriving DecidableEq, Repr

instance : Inhabited Rec := ⟨⟨"", 0, none, none, none, none⟩⟩

/-- lines 62-65: `df[(df["country"].isin(countries)) & (df["date"].between(start, end))]`.
Boolean-mask filtering keeps the original row order and both interval
endpoints are included (pandas `between` is inclusive by default). -/
def filtered_df (df : List Rec) (countries : List String) (dstart dend : Nat) :
    List Rec :=
  df.filter (fun r =>
    countries.contains r.country && (decide (dstart ≤ r.date) && decide (r.date ≤ dend)))

/-- The projection of a row onto the four numeric columns (line 78,
`filtered_df[num_cols]`). -/
structure NumRow where
  total_vaccinations : Option Int
  people_vaccinated : Option Int
  people_fully_vaccinated : Option Int
  daily_vaccinations : Option Int
deriving DecidableEq, Repr

def projNum (r : Rec) : NumRow :=
  ⟨r.total_vaccinations, r.people_vaccinated,
   r.people_fully_vaccinated, r.daily_vaccinations⟩

/-- A numeric row has a missing value in at least one of its four columns. -/
def hasNA (n : NumRow) : Bool :=
  n.total_vaccinations.isNone || n.people_vaccinated.isNone ||
  n.people_fully_vaccinated.isNone || n.daily_vaccinations.isNone

/-- line 78: `clean_df = filtered_df[num_cols].dropna()` — project onto the
four numeric columns, then drop every row with a missing value in any of
them (dropna default: how="any", axis=0, i.e. row-wise). -/
def clean_df (f : List Rec) : List NumRow :=
  (f.map projNum).filter (fun n => !(hasNA n))

/-- Insert a row into a list already sorted ascending by date, after every
row with a strictly smaller date and before every row with an equal or
larger date.  This is the stable insertion step of the sort model. -/
def insertByDate (a : Rec) : List Rec → List Rec
  | [] => [a]
  | x :: xs => if x.date < a.date then x :: insertByDate a xs else a :: x :: xs

/-- line 82: `filtered_df.sort_values("date")`, modelled as a stable
ascending insertion sort on the date column: rows of equal date keep their
original relative order. -/
def sortValuesDate : List Rec → List Rec
  | [] => []
  | x :: xs => insertByDate x (sortValuesDate xs)

/-- Ascending sortedness on the date column. -/
def SortedByDate (l : List Rec) : Prop :=
  l.Pairwise (fun a b => a.date ≤ b.date)

/-- Insert a string into an ascending-sorted list of strings. -/
def insertStr (a : String) : List String → List String
  | [] => [a]
  | x :: xs => if x < a then x :: insertStr a xs else a :: x :: xs

def sortStr : List String → List String
  | [] => []
  | x :: xs => insertStr x (sortStr xs)

/-- The group keys of `groupby("country")`: the distinct countries of the
frame, in ascending order (pandas groupby sorts the keys by default). -/
def sortedCountries (f : List Rec) : List String :=
  sortStr (f.map (fun r => r.country)).dedup

/-- The last non-missing entry of one column within a group, scanning the
group in frame order (pandas GroupBy.last skips NA elements by default). -/
def lastEntry (g : List Rec) (proj : Rec → Option Int) : Option Int :=
  g.foldl (fun acc r => match proj r with | some v => some v | none => acc) none

/-- The date of the last row of a group (the date column is never missing,
so GroupBy.last returns the last row's date; 0 for an empty group). -/
def lastDate (g : List Rec) : Nat :=
  g.foldl (fun _ r => r.date) 0

/-- `GroupBy.last()` for the group of one country: per column, the last
non-missing entry of the group. -/
def aggLast (c : String) (g : List Rec) : Rec :=
  { country := c
  , date := lastDate g
  , total_vaccinations := lastEntry g (fun r => r.total_vaccinations)
  , people_vaccinated := lastEntry g (fun r => r.people_vaccinated)
  , people_fully_vaccinated := lastEntry g (fun r => r.people_fully_vaccinated)
  , daily_vaccinations := lastEntry g (fun r => r.daily_vaccinations) }

/-- The rows of country c of a frame, in frame order. -/
def groupOf (f : List Rec) (c : String) : List Rec :=
  f.filter (fun r => r.country == c)

/-- lines 81-86: `filtered_df.sort_values("date").groupby("country").last().reset_index()`.
One row per distinct country (keys ascending); each column of that row is
the last non-missing entry of the column among the country's rows after the
ascending sort by date. -/
def latest (f : List Rec) : List Rec :=
  (sortedCountries f).map (fun c => aggLast c (groupOf (sortValuesDate f) c))

/-- Insert an integer into an ascending-sorted list of integers. -/
def insertInt (a : Int) : List Int → List Int
  | [] => [a]
  | x :: xs => if x < a then x :: insertInt a xs else a :: x :: xs

def sortInt : List Int → List Int
  | [] => []
  | x :: xs => insertInt x (sortInt xs)

/-- `int(series.mean())` for the daily_vaccinations column of CleanNumeric:
the mean of an empty series is NaN and int(NaN) raises, modelled as none;
otherwise the float mean truncated toward zero. -/
def seriesMeanInt (xs : List Int) : Option Int :=
  if xs.isEmpty then none else some ((xs.foldl (fun a b => a + b) 0).tdiv xs.length)

/-- `int(series.median())`: none on an empty series (NaN); the middle
element for odd length, the truncated average of the two middle elements
for even length. -/
def seriesMedianInt (xs : List Int) : Option Int :=
  if xs.isEmpty then none
  else
    let s := sortInt xs
    let n := s.length
    if n % 2 = 1 then some (s.getD (n / 2) 0)
    else some ((s.getD (n / 2 - 1) 0 + s.getD (n / 2) 0).tdiv 2)

/-- `int(series.max())`: none on an empty series (NaN). -/
def seriesMaxInt (xs : List Int) : Option Int :=
  match xs with
  | [] => none
  | x :: rest => some (rest.foldl (fun a b => max a b) x)

/-- `int(series.min())`: none on an empty series (NaN). -/
def seriesMinInt (xs : List Int) : Option Int :=
  match xs with
  | [] => none
  | x :: rest => some (rest.foldl (fun a b => min a b) x)

/-- lines 155-158: the four tab-3 metrics over
`clean_df["daily_vaccinations"]`.  none means the computation raised
(pandas returns NaN on an empty series and Python int(NaN) raises
ValueError, uncaught in the script). -/
def tab3Metrics (clean : List NumRow) : Option (Int × Int × Int × Int) :=
  let xs := clean.filterMap (fun n => n.daily_vaccinations)
  match seriesMeanInt xs, seriesMedianInt xs, seriesMaxInt xs, seriesMinInt xs with
  | some a, some b, some c, some d => some (a, b, c, d)
  | _, _, _, _ => none

/-- Outcome of one interaction of the script after the dataset is loaded. -/
inductive RunOutcome where
  | emptyWarning : RunOutcome
  | uncaughtError : RunOutcome
  | rendered : List Rec → List Rec → List NumRow → RunOutcome
deriving DecidableEq, Repr

/-- lines 62-158: one interaction.  The empty-filter guard (lines 67-69,
`st.warning` + `st.stop`) fires before clean_df and latest are computed and
before anything is rendered; otherwise the three views are computed and the
tabs rendered, where the tab-3 metric conversion raises an uncaught error
when CleanNumeric is empty. -/
def runPipeline (df : List Rec) (countries : List String) (dstart dend : Nat) :
    RunOutcome :=
  let f := filtered_df df countries dstart dend
  if f.isEmpty then RunOutcome.emptyWarning
  else
    let cl := clean_df f
    let lt := latest f
    match tab3Metrics cl with
    | none => RunOutcome.uncaughtError
    | some _ => RunOutcome.rendered f lt cl

/-- The three derived views of one interaction, as a function of the loaded
dataset and the filter criteria (lines 62-86). -/
def pipelineViews (df : List Rec) (countries : List String) (dstart dend : Nat) :
    List Rec × List Rec × List NumRow :=
  let f := filtered_df df countries dstart dend
  (f, latest f, clean_df f)

/-- One interaction with the dataset state threaded through explicitly: all
the pandas operations involved (boolean-mask filtering, sort_values,
groupby-last, dropna) return new frames and never write to df, so the
dataset after the interaction is the dataset before it. -/
def pipelineRun (df : List Rec) (countries : List String) (dstart dend : Nat) :
    (List Rec × List Rec × List NumRow) × List Rec :=
  (pipelineViews df countries dstart dend, df)

/-- One raw CSV row: the date still a string, the numeric cells possibly
empty. -/
structure RawRec where
  country : String
  date : String
  total_vaccinations : Option Int
  people_vaccinated : Option Int
  people_fully_vaccinated : Option Int
  daily_vaccinations : Option Int
deriving DecidableEq, Repr

/-- line 25: `pd.to_datetime(df["date"])` on an ISO yyyy-mm-dd string,
encoded as y*10000 + m*100 + d so that the calendar order is the numeric
order. -/
def parseDate (s : String) : Nat :=
  match s.splitOn "-" with
  | [y, m, d] => (y.toNat?.getD 0) * 10000 + (m.toNat?.getD 0) * 100 + (d.toNat?.getD 0)
  | _ => 0

def parseRow (r : RawRec) : Rec :=
  { country := r.country
  , date := parseDate r.date
  , total_vaccinations := r.total_vaccinations
  , people_vaccinated := r.people_vaccinated
  , people_fully_vaccinated := r.people_fully_vaccinated
  , daily_vaccinations := r.daily_vaccinations }

/-- lines 18-26: load_data.  The file system at the fixed path is modelled
as an optional file content; none means the CSV is absent, in which case
the loader shows an error and stops the script (Except.error); otherwise
the full dataset is returned with the date column parsed. -/
def load_data (file : Option (List RawRec)) : Except Unit (List Rec) :=
  match file with
  | none => Except.error ()
  | some rows => Except.ok (rows.map parseRow)

/-- Modelled from the spec's reference algorithm for C3: sort FilteredView
ascending by date with a stable sort, group by country, and take the ENTIRE
last row of each group. -/
def latestRefSpec (f : List Rec) : List Rec :=
  (sortedCountries f).map (fun c =>
    ((groupOf (sortValuesDate f) c).getLastD default))

/-- The per-column aggregation stated from the amended claim: the date is
the last row's date, and each numeric column is the last non-missing entry
of that column within the group (missing only if the whole column is
missing in the group). -/
def lastEntryAmended (g : List Rec) (proj : Rec → Option Int) : Option Int :=
  (g.reverse.find? (fun r => (proj r).isSome)).bind proj

def aggLastAmended (c : String) (g : List Rec) : Rec :=
  { country := c
  , date := ((g.getLast?).map (fun r => r.date)).getD 0
  , total_vaccinations := lastEntryAmended g (fun r => r.total_vaccinations)
  , people_vaccinated := lastEntryAmended g (fun r => r.people_vaccinated)
  , people_fully_vaccinated := lastEntryAmended g (fun r => r.people_fully_vaccinated)
  , daily_vaccinations := lastEntryAmended g (fun r => r.daily_vaccinations) }

/-- The amended reference algorithm for C3: stable ascending sort by date,
group by country (keys ascending), then per column the last non-missing
entry of the group. -/
def latestAmendedSpec (f : List Rec) : List Rec :=
  (sortedCountries f).map (fun c => aggLastAmended c (groupOf (sortValuesDate f) c))

/-- A two-row frame for one country whose chronologically last row has a
missing total_vaccinations value. -/
def df3ce : List Rec :=
  [⟨"A", 1, some 5, some 1, some 1, some 1⟩,
   ⟨"A", 2, none, some 2, some 2, some 2⟩]

/-- The maximum date among the rows of country c in a frame (0 when the
country has no rows). -/
def maxDateOf (f : List Rec) (c : String) : Nat :=
  ((groupOf f c).map (fun r => r.date)).foldl max 0

/-- The spec scenario dataset for C8: three rows, two countries, dates
encoded as yyyymmdd. -/
def df8 : List Rec :=
  [⟨"A", 20210101, some 100, some 80, some 20, some 10⟩,
   ⟨"A", 20210102, some 150, some 90, some 25, some 50⟩,
   ⟨"B", 20210101, some 200, some 150, some 50, some 50⟩]

/-- A frame in which every row has a missing value in at least one of the
four numeric columns (for C10). -/
def df10 : List Rec :=
  [⟨"A", 5, none, some 1, some 1, some 1⟩,
   ⟨"A", 6, some 1, none, some 1, some 1⟩]

/-! ### Lemmas about the stable sort model -/

theorem insertByDate_perm (a : Rec) (l : List Rec) :
    (insertByDate a l).Perm (a :: l) := by
  induction l with
  | nil => exact List.Perm.refl _
  | cons x xs ih =>
    simp only [insertByDate]
    split
    · exact (List.Perm.cons x ih).trans (List.Perm.swap a x xs)
    · exact List.Perm.refl _

theorem sortValuesDate_perm (l : List Rec) : (sortValuesDate l).Perm l := by
  induction l with
  | nil => exact List.Perm.refl _
  | cons x xs ih =>
    exact (insertByDate_perm x (sortValuesDate xs)).trans (List.Perm.cons x ih)

theorem sortedByDate_insert (a : Rec) (l : List Rec) (h : SortedByDate l) :
    SortedByDate (insertByDate a l) := by
  induction l with
  | nil => exact List.pairwise_singleton _ a
  | cons x xs ih =>
    simp only [insertByDate]
    rcases List.pairwise_cons.mp h with ⟨hx, hxs⟩
    split
    · rename_i hlt
      refine List.pairwise_cons.mpr ⟨?_, ih hxs⟩
      intro b hb
      rcases List.mem_cons.mp ((insertByDate_perm a xs).mem_iff.mp hb) with hb | hb
      · subst hb; exact Nat.le_of_lt hlt
      · exact hx b hb
    · rename_i hnlt
      refine List.pairwise_cons.mpr ⟨?_, h⟩
      intro b hb
      rcases List.mem_cons.mp hb with hb | hb
      · subst hb; exact Nat.le_of_not_lt hnlt
      · exact Nat.le_trans (Nat.le_of_not_lt hnlt) (hx b hb)

theorem sortValuesDate_sorted (l : List Rec) : SortedByDate (sortValuesDate l) := by
  induction l with
  | nil => exact List.Pairwise.nil
  | cons x xs ih => exact sortedByDate_insert x (sortValuesDate xs) ih

theorem insertStr_perm (a : String) (l : List String) :
    (insertStr a l).Perm (a :: l) := by
  induction l with
  | nil => exact List.Perm.refl _
  | cons x xs ih =>
    simp only [insertStr]
    split
    · exact (List.Perm.cons x ih).trans (List.Perm.swap a x xs)
    · exact List.Perm.refl _

theorem sortStr_perm (l : List String) : (sortStr l).Perm l := by
  induction l with
  | nil => exact List.Perm.refl _
  | cons x xs ih =>
    exact (insertStr_perm x (sortStr xs)).trans (List.Perm.cons x ih)

theorem mem_sortedCountries (f : List Rec) (c : String) :
    c ∈ sortedCountries f ↔ c ∈ f.map (fun r => r.country) := by
  unfold sortedCountries
  rw [(sortStr_perm _).mem_iff, List.mem_dedup]

theorem sortedCountries_nodup (f : List Rec) : (sortedCountries f).Nodup := by
  unfold sortedCountries
  exact List.Perm.nodup (sortStr_perm ((f.map (fun r => r.country)).dedup)).symm
    (List.nodup_dedup _)

/-! ### Lemmas about the last row of a group -/

theorem lastDate_cons_cons (x y : Rec) (ys : List Rec) :
    lastDate (x :: y :: ys) = lastDate (y :: ys) := rfl

theorem lastDate_mem (l : List Rec) (h : l ≠ []) : ∃ r ∈ l, r.date = lastDate l := by
  induction l with
  | nil => exact absurd rfl h
  | cons x xs ih =>
    cases xs with
    | nil => exact ⟨x, List.mem_singleton.mpr rfl, rfl⟩
    | cons y ys =>
      rcases ih (List.cons_ne_nil y ys) with ⟨r, hr, hd⟩
      exact ⟨r, List.mem_cons_of_mem x hr, by rw [hd, lastDate_cons_cons]⟩

theorem le_lastDate (l : List Rec) (h : SortedByDate l) :
    ∀ r ∈ l, r.date ≤ lastDate l := by
  induction l with
  | nil => intro r hr; cases hr
  | cons x xs ih =>
    intro r hr
    rcases List.pairwise_cons.mp h with ⟨hx, hxs⟩
    cases xs with
    | nil =>
      rcases List.mem_singleton.mp hr with rfl
      exact Nat.le_refl _
    | cons y ys =>
      rw [lastDate_cons_cons]
      rcases List.mem_cons.mp hr with hr | hr
      · subst hr
        rcases lastDate_mem (y :: ys) (List.cons_ne_nil y ys) with ⟨s, hs, hd⟩
        exact hd ▸ hx s hs
      · exact ih hxs r hr

theorem lastDate_eq_getLast? (l : List Rec) :
    lastDate l = ((l.getLast?).map (fun r => r.date)).getD 0 := by
  induction l with
  | nil => rfl
  | cons x xs ih =>
    cases xs with
    | nil => rfl
    | cons y ys => rw [lastDate_cons_cons, List.getLast?_cons_cons, ih]

/-! ### Lemmas about foldl max over the dates -/

theorem le_foldl_max_init (l : List Nat) (a : Nat) : a ≤ l.foldl max a := by
  induction l generalizing a with
  | nil => exact Nat.le_refl a
  | cons x xs ih => exact Nat.le_trans (Nat.le_max_left a x) (ih (max a x))

theorem le_foldl_max (l : List Nat) (a y : Nat) (hy : y ∈ l) : y ≤ l.foldl max a := by
  induction l generalizing a with
  | nil => cases hy
  | cons x xs ih =>
    rcases List.mem_cons.mp hy with hy | hy
    · subst hy
      exact Nat.le_trans (Nat.le_max_right a y) (le_foldl_max_init xs (max a y))
    · exact ih (max a x) hy

theorem foldl_max_cases (l : List Nat) (a : Nat) :
    l.foldl max a = a ∨ l.foldl max a ∈ l := by
  induction l generalizing a with
  | nil => exact Or.inl rfl
  | cons x xs ih =>
    rcases ih (max a x) with h | h
    · rcases max_choice a x with hm | hm
      · exact Or.inl (by rw [List.foldl_cons, h, hm])
      · exact Or.inr (by rw [List.foldl_cons, h, hm]; exact List.mem_cons_self x xs)
    · exact Or.inr (List.mem_cons_of_mem x h)

theorem foldl_max_eq (l : List Nat) (x : Nat) (hx : x ∈ l) (hub : ∀ y ∈ l, y ≤ x) :
    l.foldl max 0 = x := by
  refine Nat.le_antisymm ?_ (le_foldl_max l 0 x hx)
  rcases foldl_max_cases l 0 with h | h
  · rw [h]; exact Nat.zero_le x
  · exact hub _ h

/-! ### GroupBy.last as a search from the right -/

theorem foldl_lastEntry_eq_find (proj : Rec → Option Int) (g : List Rec)
    (acc : Option Int) :
    g.foldl (fun acc r => match proj r with | some v => some v | none => acc) acc =
      match g.reverse.find? (fun r => (proj r).isSome) with
      | some r => proj r
      | none => acc := by
  induction g generalizing acc with
  | nil => rfl
  | cons x xs ih =>
    rw [List.foldl_cons, ih, List.reverse_cons, List.find?_append]
    cases hfind : xs.reverse.find? (fun r => (proj r).isSome) with
    | some r => rfl
    | none =>
      simp only [Option.or]
      cases hx : proj x with
      | some v => simp [List.find?, hx]
      | none => simp [List.find?, hx]

theorem lastEntry_eq_find (g : List Rec) (proj : Rec → Option Int) :
    lastEntry g proj =
      (g.reverse.find? (fun r => (proj r).isSome)).bind proj := by
  rw [lastEntry, foldl_lastEntry_eq_find]
  cases g.reverse.find? (fun r => (proj r).isSome) with
  | some r => rfl
  | none => rfl

/-! ### Grouping lemmas -/

theorem groupOf_sort_perm (f : List Rec) (c : String) :
    (groupOf (sortValuesDate f) c).Perm (groupOf f c) :=
  List.Perm.filter _ (sortValuesDate_perm f)

theorem groupOf_sort_sorted (f : List Rec) (c : String) :
    SortedByDate (groupOf (sortValuesDate f) c) :=
  List.Pairwise.filter _ (sortValuesDate_sorted f)

theorem groupOf_ne_nil (f : List Rec) (c : String)
    (hc : c ∈ f.map (fun r => r.country)) : groupOf f c ≠ [] := by
  rcases List.mem_map.mp hc with ⟨r, hr, hrc⟩
  have : r ∈ groupOf f c :=
    List.mem_filter.mpr ⟨hr, by rw [hrc]; exact beq_self_eq_true c⟩
  exact List.ne_nil_of_mem this

theorem lastDate_group_eq_max (f : List Rec) (c : String)
    (hc : c ∈ f.map (fun r => r.country)) :
    lastDate (groupOf (sortValuesDate f) c) = maxDateOf f c := by
  have hperm := groupOf_sort_perm f c
  have hsorted := groupOf_sort_sorted f c
  have hg : groupOf (sortValuesDate f) c ≠ [] := by
    intro h
    rw [h] at hperm
    exact groupOf_ne_nil f c hc hperm.symm.eq_nil
  rcases lastDate_mem _ hg with ⟨r, hr, hrd⟩
  refine (foldl_max_eq _ (lastDate (groupOf (sortValuesDate f) c)) ?_ ?_).symm
  · exact List.mem_map.mpr ⟨r, hperm.mem_iff.mp hr, hrd⟩
  · intro y hy
    rcases List.mem_map.mp hy with ⟨s, hs, rfl⟩
    exact le_lastDate _ hsorted s (hperm.mem_iff.mpr hs)

theorem filter_beq_singleton (l : List String) (c : String) (h : l.Nodup)
    (hc : c ∈ l) : l.filter (fun k => k == c) = [c] := by
  induction l with
  | nil => cases hc
  | cons x xs ih =>
    rcases List.nodup_cons.mp h with ⟨hx, hxs⟩
    rcases List.mem_cons.mp hc with hcx | hcx
    · subst hcx
      have htail : xs.filter (fun k => k == c) = [] :=
        List.filter_eq_nil_iff.mpr (fun k hk hbeq =>
          hx ((eq_of_beq hbeq) ▸ hk))
      simp [List.filter_cons, htail]
    · have hxc : (x == c) = false := by
        rcases Bool.eq_false_or_eq_true (x == c) with hb | hb
        · exact absurd ((eq_of_beq hb) ▸ hcx) hx
        · exact hb
      simp [List.filter_cons, hxc, ih hxs hcx]

/-- C1: FilteredView contains exactly the rows of the dataset whose country
is in the selected set and whose date lies in the inclusive interval. -/
theorem filtered_df_mem_iff (df : List Rec) (countries : List String)
    (dstart dend : Nat) (r : Rec) :
    r ∈ filtered_df df countries dstart dend ↔
      r ∈ df ∧ r.country ∈ countries ∧ dstart ≤ r.date ∧ r.date ≤ dend := by
  simp [filtered_df, List.mem_filter, and_assoc]

/-- C4: every row of CleanNumeric has all four numeric values present, and
CleanNumeric has at most as many rows as FilteredView. -/
theorem clean_df_no_missing_and_card (f : List Rec) :
    ((clean_df f).all (fun n => !(hasNA n)) = true) ∧
      (clean_df f).length ≤ f.length := by
  constructor
  · simp only [List.all_eq_true, clean_df]
    intro n hn
    exact (List.mem_filter.mp hn).2
  · calc (clean_df f).length ≤ (f.map projNum).length := List.length_filter_le _ _
      _ = f.length := List.length_map _ _

/-- C2: for every country c occurring in FilteredView, LatestPerCountry has
exactly one row for c, and that row's date is the maximum date among c's
rows in FilteredView. -/
theorem latest_one_row_max_date (f : List Rec) (c : String)
    (hc : c ∈ f.map (fun r => r.country)) :
    ((latest f).filter (fun r => r.country == c)).length = 1 ∧
      ((latest f).filter (fun r => r.country == c)).map (fun r => r.date) =
        [maxDateOf f c] := by
  have hkeys : (sortedCountries f).filter (fun k => k == c) = [c] :=
    filter_beq_singleton _ c (sortedCountries_nodup f)
      ((mem_sortedCountries f c).mpr hc)
  have hfilter : (latest f).filter (fun r => r.country == c)
      = [aggLast c (groupOf (sortValuesDate f) c)] := by
    unfold latest
    rw [List.filter_map]
    rw [show (sortedCountries f).filter
        ((fun r => r.country == c) ∘ fun k => aggLast k (groupOf (sortValuesDate f) k))
        = [c] from (List.filter_congr (fun k _ => rfl)).trans hkeys]
    rfl
  refine ⟨by rw [hfilter]; rfl, ?_⟩
  rw [hfilter]
  show [(aggLast c (groupOf (sortValuesDate f) c)).date] = [maxDateOf f c]
  rw [show (aggLast c (groupOf (sortValuesDate f) c)).date
      = lastDate (groupOf (sortValuesDate f) c) from rfl]
  rw [lastDate_group_eq_max f c hc]

/-- Witness for C2 at the spec scenario dataset and country A. -/
theorem latest_one_row_max_date_witness :
    ("A" ∈ df8.map (fun r => r.country)) ∧
      (((latest df8).filter (fun r => r.country == "A")).length = 1 ∧
        ((latest df8).filter (fun r => r.country == "A")).map (fun r => r.date) =
          [maxDateOf df8 "A"]) :=
  ⟨by decide, latest_one_row_max_date df8 "A" (by decide)⟩

/-- C3 counterexample: on the two-row frame df3ce the derivation does not
take the entire last row of the group; its row is not any row of the
frame, because GroupBy.last takes the last non-missing entry per column. -/
theorem latest_not_whole_row_ce :
    filtered_df df3ce ["A"] 1 2 = df3ce ∧ df3ce ≠ [] ∧
      latest df3ce ≠ latestRefSpec df3ce ∧
      (latest df3ce).all (fun r => !(df3ce.contains r)) = true := by decide

/-- C3 amended: LatestPerCountry equals the amended reference algorithm:
stable ascending sort by date, group by country (keys ascending), and per
group one row whose date is the last row's date and whose numeric columns
are, independently, the last non-missing entry of that column in the
group. -/
theorem latest_eq_amendedSpec (f : List Rec) : latest f = latestAmendedSpec f := by
  unfold latest latestAmendedSpec
  refine List.map_congr_left (fun c _ => ?_)
  simp [aggLast, aggLastAmended, lastEntry_eq_find, lastEntryAmended,
    lastDate_eq_getLast?]

/-- C5: the interaction signals the empty-filter warning and stops (with no
views computed and nothing rendered) exactly when FilteredView is empty. -/
theorem empty_guard_iff (df : List Rec) (cs : List String) (s e : Nat) :
    runPipeline df cs s e = RunOutcome.emptyWarning ↔
      filtered_df df cs s e = [] := by
  rcases hf : filtered_df df cs s e with _ | ⟨x, xs⟩
  · simp [runPipeline, hf]
  · simp only [runPipeline, hf, List.isEmpty_cons, Bool.false_eq_true,
      if_false, List.cons_ne_nil, iff_false]
    cases tab3Metrics (clean_df (x :: xs)) <;> simp

/-- C6: the loader fails exactly when the CSV file is absent at the fixed
path (error shown and the script stopped); when present it returns the full
dataset with the date column parsed. -/
theorem load_data_spec :
    (load_data none = Except.error ()) ∧
      (∀ rows : List RawRec, load_data (some rows) = Except.ok (rows.map parseRow)) ∧
      (∀ file : Option (List RawRec), load_data file = Except.error () ↔ file = none) := by
  refine ⟨rfl, fun rows => rfl, fun file => ?_⟩
  cases file with
  | none => simp [load_data]
  | some rows => simp [load_data]

/-- C7: the pipeline is a pure function of the dataset and the criteria:
two runs on an unchanged dataset with identical criteria give identical
FilteredView, LatestPerCountry and CleanNumeric. -/
theorem pipeline_deterministic (df₁ df₂ : List Rec) (cs₁ cs₂ : List String)
    (s₁ s₂ e₁ e₂ : Nat) (hdf : df₁ = df₂) (hcs : cs₁ = cs₂) (hs : s₁ = s₂)
    (he : e₁ = e₂) :
    pipelineViews df₁ cs₁ s₁ e₁ = pipelineViews df₂ cs₂ s₂ e₂ := by
  subst hdf hcs hs he
  rfl

/-- Witness for C7 at the spec scenario input. -/
theorem pipeline_deterministic_witness :
    (df8 = df8 ∧ (["A"] : List String) = ["A"] ∧ 20210101 = 20210101 ∧
        20210102 = 20210102) ∧
      pipelineViews df8 ["A"] 20210101 20210102 =
        pipelineViews df8 ["A"] 20210101 20210102 :=
  ⟨⟨rfl, rfl, rfl, rfl⟩,
    pipeline_deterministic df8 df8 ["A"] ["A"] 20210101 20210101 20210102 20210102
      rfl rfl rfl rfl⟩

/-- C8: the spec scenario: three rows, countries={A},
interval=[2021-01-01, 2021-01-02]: FilteredView has 2 rows and
LatestPerCountry is the single record for A with total 150,
people_vaccinated 90, people_fully_vaccinated 25. -/
theorem scenario_small_dataset :
    (filtered_df df8 ["A"] 20210101 20210102).length = 2 ∧
      latest (filtered_df df8 ["A"] 20210101 20210102) =
        [⟨"A", 20210102, some 150, some 90, some 25, some 50⟩] := by decide

/-- C9: the loaded dataset is never mutated: the dataset state after an
interaction equals the dataset before it, so a later interaction computes
its views from the same dataset. -/
theorem dataset_not_mutated (df : List Rec) (cs cs₂ : List String)
    (s e s₂ e₂ : Nat) :
    (pipelineRun df cs s e).2 = df ∧
      pipelineViews (pipelineRun df cs s e).2 cs₂ s₂ e₂ =
        pipelineViews df cs₂ s₂ e₂ :=
  ⟨rfl, rfl⟩

/-- C10: on a non-empty FilteredView in which every row has a missing value
in at least one of the four numeric columns, CleanNumeric is empty and the
tab-3 metric conversion raises an uncaught error, which is neither of the
two recognized user-visible failure states. -/
theorem empty_clean_metrics_raise :
    filtered_df df10 ["A"] 0 10 ≠ [] ∧
      (filtered_df df10 ["A"] 0 10).all (fun r => hasNA (projNum r)) = true ∧
      clean_df (filtered_df df10 ["A"] 0 10) = [] ∧
      tab3Metrics (clean_df (filtered_df df10 ["A"] 0 10)) = none ∧
      runPipeline df10 ["A"] 0 10 = RunOutcome.uncaughtError := by decide
